import Mathlib
/-!
Verification of the Office365 REST client sources:
`office365/outlook/mail/messages/message.py`,
`office365/outlook/mail/messages/collection.py`,
`office365/sharepoint/portal/GroupSiteManager.py`.

The resource classes in those files sit on a generic runtime
(`ClientRuntimeContext`, `ServiceOperationQuery`, property maps, events)
that is not part of the sources; per the spec, that runtime queues
queries and dispatches them against HTTP only on an explicit execute
call.  The runtime pieces are modelled from the spec and marked as such;
every method of the three source files is translated directly from its
Python body.

Python's dynamic values (property maps, payload dictionaries) are
embedded as inductive value types; the standard-library codecs the
sources call (`base64.b64encode`, `str.encode("utf-8")`) are modelled
from their documented semantics and proved to round-trip.
-/
/-! ## Base64 (model of Python's `base64.b64encode`) -/
/-- Modelled from the spec: the RFC 4648 base64 alphabet used by Python's
`base64.b64encode`, which the sources call to fill `content_bytes`. -/
def b64Alphabet : List Char :=
  "ABCDEFGHIJKLMNOPQRSTUVWXYZabcdefghijklmnopqrstuvwxyz0123456789+/".data
/-- The base64 digit for a 6-bit value. -/
def b64Char (n : Nat) : Char := b64Alphabet.getD n '='
def b64IndexAux : List Char → Nat → Char → Option Nat
  | [], _, _ => none
  | a :: as, i, c => if a = c then some i else b64IndexAux as (i + 1) c
/-- Position of a character in the base64 alphabet. -/
def b64Index (c : Char) : Option Nat := b64IndexAux b64Alphabet 0 c
/-- Modelled from the spec: `base64.b64encode` over a byte list
(each element < 256), producing the padded base64 character stream. -/
def b64EncodeBytes : List Nat → List Char
  | [] => []
  | [a] => [b64Char (a / 4), b64Char (a % 4 * 16), '=', '=']
  | [a, b] => [b64Char (a / 4), b64Char (a % 4 * 16 + b / 16),
               b64Char (b % 16 * 4), '=']
  | a :: b :: c :: rest =>
      b64Char (a / 4) :: b64Char (a % 4 * 16 + b / 16) ::
      b64Char (b % 16 * 4 + c / 64) :: b64Char (c % 64) ::
      b64EncodeBytes rest
/-- Decode one base64 quad (possibly padded) back to 1–3 bytes. -/
def b64DecodeQuad (c1 c2 c3 c4 : Char) : Option (List Nat) :=
  if c3 = '=' ∧ c4 = '=' then do
    let n1 ← b64Index c1
    let n2 ← b64Index c2
    pure [n1 * 4 + n2 / 16]
  else if c4 = '=' then do
    let n1 ← b64Index c1
    let n2 ← b64Index c2
    let n3 ← b64Index c3
    pure [n1 * 4 + n2 / 16, n2 % 16 * 16 + n3 / 4]
  else do
    let n1 ← b64Index c1
    let n2 ← b64Index c2
    let n3 ← b64Index c3
    let n4 ← b64Index c4
    pure [n1 * 4 + n2 / 16, n2 % 16 * 16 + n3 / 4, n3 % 4 * 64 + n4]
/-- Modelled from the spec: `base64.b64decode`, the inverse of
`b64EncodeBytes`: quads are decoded in order, padding is accepted only
on the final quad. -/
def b64DecodeChars : List Char → Option (List Nat)
  | [] => some []
  | c1 :: c2 :: c3 :: c4 :: rest =>
      if c3 = '=' ∨ c4 = '=' then
        if rest = [] then b64DecodeQuad c1 c2 c3 c4 else none
      else do
        let first ← b64DecodeQuad c1 c2 c3 c4
        let tail ← b64DecodeChars rest
        pure (first ++ tail)
  | _ => none
/-! ## UTF-8 (model of Python's `str.encode("utf-8")`) -/
/-- Modelled from the spec: the UTF-8 encoding of a single code point,
as produced by Python's `str.encode("utf-8")` per character. -/
def utf8EncodeNat (n : Nat) : List Nat :=
  if n < 0x80 then [n]
  else if n < 0x800 then [0xC0 + n / 64, 0x80 + n % 64]
  else if n < 0x10000 then
    [0xE0 + n / 4096, 0x80 + n / 64 % 64, 0x80 + n % 64]
  else
    [0xF0 + n / 262144, 0x80 + n / 4096 % 64, 0x80 + n / 64 % 64,
     0x80 + n % 64]
/-- Modelled from the spec: `str.encode("utf-8")` over the character list
of a string. -/
def utf8EncodeChars : List Char → List Nat
  | [] => []
  | c :: cs => utf8EncodeNat c.toNat ++ utf8EncodeChars cs
/-- UTF-8 bytes of a string. -/
def utf8Encode (s : String) : List Nat := utf8EncodeChars s.data
/-- Modelled from the spec: UTF-8 decoding (`bytes.decode("utf-8")`),
fuelled by the number of characters still to be produced. -/
def utf8DecodeAux : Nat → List Nat → Option (List Char)
  | _, [] => some []
  | 0, _ :: _ => none
  | fuel + 1, b :: rest =>
    if b < 0x80 then do
      let cs ← utf8DecodeAux fuel rest
      pure (Char.ofNat b :: cs)
    else if 0xC0 ≤ b ∧ b < 0xE0 then
      match rest with
      | b2 :: rest2 =>
        if 0x80 ≤ b2 ∧ b2 < 0xC0 then do
          let cs ← utf8DecodeAux fuel rest2
          pure (Char.ofNat ((b - 0xC0) * 64 + (b2 - 0x80)) :: cs)
        else none
      | [] => none
    else if 0xE0 ≤ b ∧ b < 0xF0 then
      match rest with
      | b2 :: b3 :: rest3 =>
        if (0x80 ≤ b2 ∧ b2 < 0xC0) ∧ (0x80 ≤ b3 ∧ b3 < 0xC0) then do
          let cs ← utf8DecodeAux fuel rest3
          pure (Char.ofNat ((b - 0xE0) * 4096 + (b2 - 0x80) * 64 +
            (b3 - 0x80)) :: cs)
        else none
      | _ => none
    else if 0xF0 ≤ b ∧ b < 0xF8 then
      match rest with
      | b2 :: b3 :: b4 :: rest4 =>
        if (0x80 ≤ b2 ∧ b2 < 0xC0) ∧ (0x80 ≤ b3 ∧ b3 < 0xC0) ∧
            (0x80 ≤ b4 ∧ b4 < 0xC0) then do
          let cs ← utf8DecodeAux fuel rest4
          pure (Char.ofNat ((b - 0xF0) * 262144 + (b2 - 0x80) * 4096 +
            (b3 - 0x80) * 64 + (b4 - 0x80)) :: cs)
        else none
      | _ => none
    else none
/-- UTF-8 decoding of a byte list back to a string. -/
def utf8DecodeString (bs : List Nat) : Option String :=
  (utf8DecodeAux bs.length bs).map fun cs => ⟨cs⟩
/-! ## Data model -/
inductive HttpMethod
  | Get
  | Post
  | Patch
  | Delete
deriving DecidableEq
/-- Modelled from the spec: `ResourcePath(name, parent)`, the path of a
client object below the service root; a `None` parent is `root`. -/
inductive ResourcePath
  | root
  | mk (name : String) (parent : ResourcePath)
deriving DecidableEq
/-- Modelled from the spec: the `Recipient` client value; only the email
address reached through `Recipient.from_email` is observable here. -/
structure Recipient where
  address : String
deriving DecidableEq
/-- Modelled from the spec: `Recipient.from_email(value)` builds a
recipient from a plain email string. -/
def Recipient.from_email (value : String) : Recipient := ⟨value⟩
/-- Modelled from the spec: `ItemBody(content)`; `ItemBody()` leaves the
content unset. -/
structure ItemBody where
  content : Option String := none
deriving DecidableEq
/-- A dynamically typed Python value stored in a client object's
property map. -/
inductive PropValue
  | str (s : String)
  | boolVal (b : Bool)
  | itemBody (b : ItemBody)
  | recipients (items : List Recipient)
  | attachmentCollection (path : ResourcePath)
deriving DecidableEq
/-- A message client object: its loaded JSON property map and its
resource path (`root` for a freshly constructed draft). -/
structure Message where
  properties : List (String × PropValue) := []
  resourcePath : ResourcePath := .root
deriving DecidableEq
/-- Modelled from the spec: Python `dict` lookup (`d.get(key)` /
`d[key]`), first binding wins. -/
def dictGet {α : Type} : List (String × α) → String → Option α
  | [], _ => none
  | (k', v') :: rest, k => if k' = k then some v' else dictGet rest k
/-- Modelled from the spec: Python `dict` assignment `d[key] = value`. -/
def dictSet {α : Type} : List (String × α) → String → α → List (String × α)
  | [], k, v => [(k, v)]
  | (k', v') :: rest, k, v =>
      if k' = k then (k, v) :: rest else (k', v') :: dictSet rest k v
/-- A dynamically typed Python value passed inside a queued operation
payload. -/
inductive ParamValue
  | str (s : String)
  | optStr (s : Option String)
  | boolVal (b : Bool)
  | msg (m : Message)
  | recipients (items : List Recipient)
deriving DecidableEq
/-- Modelled from the spec: the `GroupSiteInfo` placeholder client value
returned by the site-provisioning operations. -/
inductive GroupSiteInfo
  | placeholder
deriving DecidableEq
/-- The client object a query is bound to. -/
inductive BindingType
  | message (m : Message)
  | groupSiteManager
deriving DecidableEq
/-- The return value bound to a queued query, to be filled on execute. -/
inductive ReturnValue
  | clientResult
  | groupSiteInfo (g : GroupSiteInfo)
deriving DecidableEq
/-- Modelled from the spec: `ServiceOperationQuery(binding_type,
method_name, method_params, parameter_type, parameter_name,
return_type)`, the unit placed on the context's pending-query queue. -/
structure ServiceOperationQuery where
  bindingType : BindingType
  methodName : String
  methodParams : Option (List String) := none
  parameterType : Option (List (String × ParamValue)) := none
  parameterName : Option String := none
  returnType : Option ReturnValue := none
deriving DecidableEq
/-- An HTTP request being prepared for dispatch. -/
structure RequestOptions where
  method : HttpMethod
  url : String
deriving DecidableEq
/-- Handlers a source method can attach to the pending request's
`beforeExecute` event (tagged; their behaviour is `runRequestHandler`). -/
inductive RequestHandler
  | constructStatusRequest
deriving DecidableEq
/-- Handlers a source method can register via `context.before_execute`. -/
inductive ContextBeforeHandler
  | constructQuery
deriving DecidableEq
/-- Handlers a source method can register via `context.after_execute`. -/
inductive AfterHandler
  | contentDownloaded
deriving DecidableEq
/-- Modelled from the spec: the client runtime context.  It holds the
pending-query queue, the registered callbacks, the pending request's
`beforeExecute` subscriber list, and the log of HTTP requests actually
dispatched. -/
structure ClientContext where
  queries : List ServiceOperationQuery := []
  beforeExecuteHandlers : List ContextBeforeHandler := []
  afterExecuteHandlers : List AfterHandler := []
  pendingBefore : List RequestHandler := []
  dispatched : List RequestOptions := []
deriving DecidableEq
/-- Modelled from the spec: `context.add_query(qry)` appends the query to
the pending-query queue and performs no HTTP traffic. -/
def ClientContext.add_query (ctx : ClientContext) (q : ServiceOperationQuery) :
    ClientContext :=
  { ctx with queries := ctx.queries ++ [q] }
/-- Modelled from the spec: `context.before_execute(handler)`. -/
def ClientContext.before_execute (ctx : ClientContext) (h : ContextBeforeHandler) :
    ClientContext :=
  { ctx with beforeExecuteHandlers := ctx.beforeExecuteHandlers ++ [h] }
/-- Modelled from the spec: `context.after_execute(handler)`. -/
def ClientContext.after_execute (ctx : ClientContext) (h : AfterHandler) :
    ClientContext :=
  { ctx with afterExecuteHandlers := ctx.afterExecuteHandlers ++ [h] }
/-- Modelled from the spec:
`context.get_pending_request().beforeExecute += handler`. -/
def ClientContext.subscribe_pending_before (ctx : ClientContext)
    (h : RequestHandler) : ClientContext :=
  { ctx with pendingBefore := ctx.pendingBefore ++ [h] }
/-! ## Runtime execution (modelled from the spec) -/
/-- The string value of a payload entry, as read by
`query.parameterType[key]` in `_construct_status_request`. -/
def queryParamString (q : ServiceOperationQuery) (key : String) : String :=
  match q.parameterType with
  | some ps =>
      match dictGet ps key with
      | some (ParamValue.str s) => s
      | _ => ""
  | none => ""
/-- `GroupSiteManager._construct_status_request` translated from the
source: set the request method to GET, append `?groupId='<id>'` taken
from the query's payload to the URL, and unsubscribe itself (the `true`
flag) from the pending request's `beforeExecute` event. -/
def runRequestHandler :
    RequestHandler → RequestOptions → ServiceOperationQuery →
      RequestOptions × Bool
  | .constructStatusRequest, req, q =>
      ({ method := HttpMethod.Get,
         url := req.url ++ "?groupId='" ++ queryParamString q "groupId" ++ "'" },
       true)
/-- Modelled from the spec: firing the pending request's `beforeExecute`
event runs each subscribed handler in order on the request being built
and drops the handlers that unsubscribed themselves. -/
def fireRequestHandlers :
    List RequestHandler → RequestOptions → ServiceOperationQuery →
      RequestOptions × List RequestHandler
  | [], req, _ => (req, [])
  | h :: hs, req, q =>
      let step := runRequestHandler h req q
      let rest := fireRequestHandlers hs step.1 q
      (rest.1, if step.2 then rest.2 else h :: rest.2)
/-- `Message.get_content._construct_query` translated from the source:
set the request method to GET. -/
def runContextBeforeHandler : ContextBeforeHandler → RequestOptions → RequestOptions
  | .constructQuery, req => { req with method := HttpMethod.Get }
/-- Modelled from the spec: the HTTP request initially built for a
queued service-operation query. -/
def buildRequest (q : ServiceOperationQuery) : RequestOptions :=
  { method := HttpMethod.Post, url := "/" ++ q.methodName }
/-- Modelled from the spec: an explicit `execute_query` call pops the
next pending query, builds its HTTP request, runs the registered
before-execute handlers and the pending request's `beforeExecute`
subscribers, and only then dispatches the request. -/
def ClientContext.execute_query (ctx : ClientContext) : ClientContext :=
  match ctx.queries with
  | [] => ctx
  | q :: rest =>
      let req0 := buildRequest q
      let req1 := ctx.beforeExecuteHandlers.foldl
        (fun r h => runContextBeforeHandler h r) req0
      let fired := fireRequestHandlers ctx.pendingBefore req1 q
      { ctx with
          queries := rest
          pendingBefore := fired.2
          dispatched := ctx.dispatched ++ [fired.1] }
/-! ## `office365/outlook/mail/messages/message.py` -/
/-- Modelled from the spec: the `FileAttachment` client object; the
fields the sources assign. -/
structure FileAttachment where
  name : String := ""
  content_bytes : String := ""
  content_type : Option String := none
deriving DecidableEq
/-- `Message.send` from the source: queue one `"send"` operation with no
payload and return `self`. -/
def Message.send (m : Message) (ctx : ClientContext) : ClientContext × Message :=
  let qry : ServiceOperationQuery := { bindingType := .message m, methodName := "send" }
  (ctx.add_query qry, m)
/-- `Message.reply` from the source: queue one `"reply"` operation whose
payload holds a fresh draft `Message` and the comment, and return the
fresh message. -/
def Message.reply (m : Message) (ctx : ClientContext) (comment : Option String) :
    ClientContext × Message :=
  let message : Message := {}
  let payload : List (String × ParamValue) :=
    [("message", ParamValue.msg message), ("comment", ParamValue.optStr comment)]
  let qry : ServiceOperationQuery :=
    { bindingType := .message m, methodName := "reply", parameterType := some payload }
  (ctx.add_query qry, message)
/-- `Message.reply_all` from the source: queue one `"replyAll"` operation
with no payload and return `self`. -/
def Message.reply_all (m : Message) (ctx : ClientContext) : ClientContext × Message :=
  let qry : ServiceOperationQuery :=
    { bindingType := .message m, methodName := "replyAll" }
  (ctx.add_query qry, m)
/-- `Message.move` from the source: queue one `"move"` operation whose
payload is `{"DestinationId": destination_id}` and return `self`. -/
def Message.move (m : Message) (ctx : ClientContext) (destination_id : String) :
    ClientContext × Message :=
  let payload : List (String × ParamValue) :=
    [("DestinationId", ParamValue.str destination_id)]
  let qry : ServiceOperationQuery :=
    { bindingType := .message m, methodName := "move",
      parameterType := some payload }
  (ctx.add_query qry, m)
/-- `Message.forward` from the source: queue one `"forward"` operation
whose payload maps the recipient emails through `Recipient.from_email`
and carries the comment, and return `self`. -/
def Message.forward (m : Message) (ctx : ClientContext)
    (to_recipients : List String) (comment : String) :
    ClientContext × Message :=
  let payload : List (String × ParamValue) :=
    [("toRecipients",
      ParamValue.recipients (to_recipients.map fun v => Recipient.from_email v)),
     ("comment", ParamValue.str comment)]
  let qry : ServiceOperationQuery :=
    { bindingType := .message m, methodName := "forward",
      parameterType := some payload }
  (ctx.add_query qry, m)
/-- `Message.get_content` from the source: queue one `"$value"` operation
bound to a `ClientResult` and register `_construct_query` on the
context's before-execute event. -/
def Message.get_content (m : Message) (ctx : ClientContext) : ClientContext :=
  let qry : ServiceOperationQuery :=
    { bindingType := .message m, methodName := "$value",
      returnType := some ReturnValue.clientResult }
  (ctx.before_execute ContextBeforeHandler.constructQuery).add_query qry
/-- The log of write calls received by a Python file object. -/
abbrev FileObject := List String
/-- World state threading the runtime context together with a caller's
file object. -/
structure World where
  ctx : ClientContext := {}
  file : FileObject := []
deriving DecidableEq
/-- An HTTP response as seen by an after-execute callback. -/
structure Response where
  status_code : Nat
deriving DecidableEq
/-- Modelled from the spec: `requests.Response.raise_for_status` raises
`HTTPError` exactly for 4xx/5xx status codes. -/
def raise_for_status (resp : Response) : Except String Unit :=
  if 400 ≤ resp.status_code ∧ resp.status_code < 600 then
    Except.error "HTTPError"
  else Except.ok ()
/-- `Message.download._content_downloaded` translated from the source:
`resp.raise_for_status()` first, then `file_object.write(result.value)`. -/
def content_downloaded (value : String) (resp : Response)
    (file_object : FileObject) : Except String FileObject :=
  match raise_for_status resp with
  | Except.error e => Except.error e
  | Except.ok _ => Except.ok (file_object ++ [value])
/-- Behaviour of a registered after-execute handler when the response of
the executed request arrives. -/
def runAfterHandler :
    AfterHandler → String → Response → FileObject → Except String FileObject
  | .contentDownloaded, value, resp, f => content_downloaded value resp f
/-- `Message.download` from the source: call `get_content` (which only
queues), register `_content_downloaded` on the context's after-execute
event, and touch nothing else — in particular not the file object. -/
def Message.download (m : Message) (w : World) : World :=
  { w with
      ctx := (Message.get_content m w.ctx).after_execute
        AfterHandler.contentDownloaded }
/-- `Message.add_file_attachment` from the source:
`content_bytes = base64.b64encode(content.encode("utf-8")).decode("utf-8")`. -/
def Message.add_file_attachment (name content : String)
    (content_type : Option String) : FileAttachment :=
  { name := name,
    content_bytes := ⟨b64EncodeBytes (utf8Encode content)⟩,
    content_type := content_type }
/-- A file on the local filesystem handed to `upload_attachment`. -/
structure LocalFile where
  path : String
  content : List Nat
deriving DecidableEq
/-- Modelled from the spec: `os.stat(file_path).st_size`, the byte size
of the file. -/
def LocalFile.st_size (f : LocalFile) : Nat := f.content.length
/-- Modelled from the spec: `os.path.basename`, the path component after
the last separator. -/
def basename (p : String) : String := (p.splitOn "/").getLastD ""
/-- What `Message.upload_attachment` does with the file: either schedule
a resumable chunked upload once the given property is loaded, or store
the base64-encoded content inline under the given attachment name. -/
inductive UploadAction
  | resumable (chunkSize : Nat) (ensuredProperty : String)
  | inlineContent (content_bytes : String) (name : String)
deriving DecidableEq
/-- `Message.upload_attachment` from the source: files strictly larger
than `max_upload_chunk = 1000000 * 3` bytes go through
`ensure_property("id", ...)` and `resumable_upload` with that chunk
size; anything else is read and stored base64-encoded inline, named by
the file's basename. -/
def Message.upload_attachment (file : LocalFile) : UploadAction :=
  let max_upload_chunk : Nat := 1000000 * 3
  let file_size := file.st_size
  if file_size > max_upload_chunk then
    UploadAction.resumable max_upload_chunk "id"
  else
    UploadAction.inlineContent ⟨b64EncodeBytes file.content⟩ (basename file.path)
/-- `Message.to_recipients` (getter) from the source:
`self.properties.get('toRecipients', ClientValueCollection(Recipient))`,
returned together with the receiver state after the call. -/
def Message.to_recipients (m : Message) : PropValue × Message :=
  ((dictGet m.properties "toRecipients").getD (PropValue.recipients []), m)
/-- `Message.has_attachments` (getter) from the source:
`self.properties.get("hasAttachments", None)`, returned together with
the receiver state after the call. -/
def Message.has_attachments (m : Message) : Option PropValue × Message :=
  (dictGet m.properties "hasAttachments", m)
/-- `Message.subject` (getter) from the source:
`self.properties.get("subject", None)`, returned together with the
receiver state after the call. -/
def Message.subject (m : Message) : Option PropValue × Message :=
  (dictGet m.properties "subject", m)
/-- `Message.attachments` (getter) from the source:
`self.properties.get('attachments', AttachmentCollection(self.context,
ResourcePath("attachments", self.resource_path)))`, returned together
with the receiver state after the call. -/
def Message.attachments (m : Message) : PropValue × Message :=
  ((dictGet m.properties "attachments").getD
      (PropValue.attachmentCollection (ResourcePath.mk "attachments" m.resourcePath)),
   m)
/-- Modelled from the spec: `ClientObject.get_property(name,
default_value)` returns the loaded property when present and the given
default otherwise. -/
def ClientObject.get_property (props : List (String × PropValue))
    (name : String) (default : Option PropValue) : Option PropValue :=
  match dictGet props name with
  | some v => some v
  | none => default
/-- `Message.get_property` from the source: when no default is given it
consults `property_type_mapping` (which maps `"toRecipients"` to the
`to_recipients` getter's value) before delegating to the superclass. -/
def Message.get_property (m : Message) (name : String)
    (default : Option PropValue) : Option PropValue :=
  let d : Option PropValue :=
    match default with
    | none =>
        if name = "toRecipients" then some (Message.to_recipients m).1 else none
    | some v => some v
  ClientObject.get_property m.properties name d
/-- Modelled from the spec: `ClientObject.set_property(name, value)`
stores the value in the property map. -/
def ClientObject.set_property (m : Message) (name : String)
    (value : PropValue) : Message :=
  { m with properties := dictSet m.properties name value }
/-- `Message.body` (getter) from the source:
`self.get_property("body", ItemBody())`. -/
def Message.body (m : Message) : Option PropValue :=
  Message.get_property m "body" (some (PropValue.itemBody {}))
/-- The dynamic argument of the `Message.body` setter: a string or an
`ItemBody`. -/
inductive BodyInput
  | str (s : String)
  | body (b : ItemBody)
deriving DecidableEq
/-- `Message.body` (setter) from the source: a value that is not already
an `ItemBody` is wrapped as `ItemBody(value)` before being stored. -/
def Message.set_body (m : Message) (value : BodyInput) : Message :=
  let v : ItemBody :=
    match value with
    | .body b => b
    | .str s => { content := some s }
  ClientObject.set_property m "body" (PropValue.itemBody v)
/-! ## `office365/outlook/mail/messages/collection.py` -/
/-- Modelled from the spec: the keyword properties `MessageCollection.add`
passes to the superclass `add`, which creates the draft entity from them
and queues its insertion. -/
structure DraftMessagePayload where
  body : ItemBody
  subject : String
  toRecipients : List Recipient
deriving DecidableEq
/-- `MessageCollection.add` from the source: a `None` recipient list
becomes `[]`; the body is wrapped as `ItemBody(body)` unless it already
is an `ItemBody`; the recipients are mapped through
`Recipient.from_email`. -/
def MessageCollection.add (subject : String) (body : BodyInput)
    (to_recipients : Option (List String)) : DraftMessagePayload :=
  let to_recipients' : List String :=
    match to_recipients with
    | none => []
    | some l => l
  { body :=
      match body with
      | .body b => b
      | .str s => { content := some s },
    subject := subject,
    toRecipients := to_recipients'.map fun v => Recipient.from_email v }
/-! ## `office365/sharepoint/portal/GroupSiteManager.py` -/
/-- `GroupSiteManager.create_group_ex` from the source: queue one
`"CreateGroupEx"` operation with the four-field payload and return the
`GroupSiteInfo` placeholder bound as the query's return type.  (`alias`
is a Lean keyword, hence the trailing underscore.) -/
def GroupSiteManager.create_group_ex (ctx : ClientContext)
    (display_name alias_ : String) (is_public : Bool)
    (optional_params : ParamValue) : ClientContext × GroupSiteInfo :=
  let payload : List (String × ParamValue) :=
    [("displayName", ParamValue.str display_name),
     ("alias", ParamValue.str alias_),
     ("isPublic", ParamValue.boolVal is_public),
     ("optionalParams", optional_params)]
  let group_site_info := GroupSiteInfo.placeholder
  let qry : ServiceOperationQuery :=
    { bindingType := .groupSiteManager, methodName := "CreateGroupEx",
      parameterType := some payload,
      returnType := some (ReturnValue.groupSiteInfo group_site_info) }
  (ctx.add_query qry, group_site_info)
/-- `GroupSiteManager.delete` from the source: queue one `"Delete"`
operation whose payload is `{"siteUrl": site_url}`. -/
def GroupSiteManager.delete (ctx : ClientContext) (site_url : String) :
    ClientContext :=
  let payload : List (String × ParamValue) :=
    [("siteUrl", ParamValue.str site_url)]
  let qry : ServiceOperationQuery :=
    { bindingType := .groupSiteManager, methodName := "Delete",
      parameterType := some payload }
  ctx.add_query qry
/-- `GroupSiteManager.get_status` from the source: queue one
`"GetSiteStatus"` operation carrying `{'groupId': group_id}`, subscribe
`_construct_status_request` to the pending request's `beforeExecute`
event, and return the `GroupSiteInfo` placeholder. -/
def GroupSiteManager.get_status (ctx : ClientContext) (group_id : String) :
    ClientContext × GroupSiteInfo :=
  let group_site_info := GroupSiteInfo.placeholder
  let qry : ServiceOperationQuery :=
    { bindingType := .groupSiteManager, methodName := "GetSiteStatus",
      parameterType := some [("groupId", ParamValue.str group_id)],
      returnType := some (ReturnValue.groupSiteInfo group_site_info) }
  ((ctx.add_query qry).subscribe_pending_before
      RequestHandler.constructStatusRequest,
   group_site_info)

/-- A method call that only queues: the dispatched-request log is
untouched, exactly one query is appended to the pending-query queue, and
the three callback lists are only ever appended to. -/
def OnlyQueues (ctx ctx2 : ClientContext) : Prop :=
  ctx2.dispatched = ctx.dispatched ∧
  (∃ q, ctx2.queries = ctx.queries ++ [q]) ∧
  ctx.beforeExecuteHandlers <+: ctx2.beforeExecuteHandlers ∧
  ctx.afterExecuteHandlers <+: ctx2.afterExecuteHandlers ∧
  ctx.pendingBefore <+: ctx2.pendingBefore

/-! ## Codec round-trip lemmas -/

theorem b64Index_b64Char : ∀ n < 64, b64Index (b64Char n) = some n := by
  decide

theorem b64Char_ne_pad : ∀ n < 64, b64Char n ≠ '=' := by decide

theorem b64DecodeQuad_one (a : Nat) (h : a < 256) :
    b64DecodeQuad (b64Char (a / 4)) (b64Char (a % 4 * 16)) '=' '=' = some [a] := by
  have h1 : a / 4 < 64 := by omega
  have h2 : a % 4 * 16 < 64 := by omega
  simp [b64DecodeQuad, b64Index_b64Char _ h1, b64Index_b64Char _ h2]
  omega

theorem b64DecodeQuad_two (a b : Nat) (ha : a < 256) (hb : b < 256) :
    b64DecodeQuad (b64Char (a / 4)) (b64Char (a % 4 * 16 + b / 16))
      (b64Char (b % 16 * 4)) '=' = some [a, b] := by
  have h1 : a / 4 < 64 := by omega
  have h2 : a % 4 * 16 + b / 16 < 64 := by omega
  have h3 : b % 16 * 4 < 64 := by omega
  simp [b64DecodeQuad, b64Index_b64Char _ h1, b64Index_b64Char _ h2,
    b64Index_b64Char _ h3, b64Char_ne_pad _ h3]
  constructor <;> omega

theorem b64DecodeQuad_three (a b c : Nat) (ha : a < 256) (hb : b < 256)
    (hc : c < 256) :
    b64DecodeQuad (b64Char (a / 4)) (b64Char (a % 4 * 16 + b / 16))
      (b64Char (b % 16 * 4 + c / 64)) (b64Char (c % 64)) = some [a, b, c] := by
  have h1 : a / 4 < 64 := by omega
  have h2 : a % 4 * 16 + b / 16 < 64 := by omega
  have h3 : b % 16 * 4 + c / 64 < 64 := by omega
  have h4 : c % 64 < 64 := by omega
  simp [b64DecodeQuad, b64Index_b64Char _ h1, b64Index_b64Char _ h2,
    b64Index_b64Char _ h3, b64Index_b64Char _ h4,
    b64Char_ne_pad _ h3, b64Char_ne_pad _ h4]
  refine ⟨by omega, by omega, by omega⟩

theorem b64_roundtrip :
    ∀ bs : List Nat, (∀ x ∈ bs, x < 256) →
      b64DecodeChars (b64EncodeBytes bs) = some bs := by
  intro bs
  induction bs using b64EncodeBytes.induct with
  | case1 =>
      intro _; rfl
  | case2 a =>
      intro h
      have ha : a < 256 := h a (by simp)
      rw [b64EncodeBytes, b64DecodeChars, if_pos (Or.inl rfl), if_pos rfl,
        b64DecodeQuad_one a ha]
  | case3 a b =>
      intro h
      have ha : a < 256 := h a (by simp)
      have hb : b < 256 := h b (by simp)
      rw [b64EncodeBytes, b64DecodeChars, if_pos (Or.inr rfl), if_pos rfl,
        b64DecodeQuad_two a b ha hb]
  | case4 a b c rest ih =>
      intro h
      have ha : a < 256 := h a (by simp)
      have hb : b < 256 := h b (by simp)
      have hc : c < 256 := h c (by simp)
      have hrest : ∀ x ∈ rest, x < 256 := fun x hx => h x (by simp [hx])
      have h3 : b % 16 * 4 + c / 64 < 64 := by omega
      have h4 : c % 64 < 64 := by omega
      have hne3 : b64Char (b % 16 * 4 + c / 64) ≠ '=' := b64Char_ne_pad _ h3
      have hne4 : b64Char (c % 64) ≠ '=' := b64Char_ne_pad _ h4
      rw [b64EncodeBytes, b64DecodeChars,
        if_neg (by rintro (hc3 | hc4); exact hne3 hc3; exact hne4 hc4),
        b64DecodeQuad_three a b c ha hb hc, ih hrest]
      rfl

theorem char_toNat_lt (c : Char) : c.toNat < 1114112 := by
  rcases c.valid with h | ⟨_, h2⟩
  · exact Nat.lt_trans h (by decide)
  · exact h2

theorem utf8EncodeNat_lt (n : Nat) (h : n < 1114112) :
    ∀ x ∈ utf8EncodeNat n, x < 256 := by
  intro x hx
  unfold utf8EncodeNat at hx
  split at hx
  · simp at hx; omega
  · split at hx
    · simp at hx; rcases hx with h | h <;> omega
    · split at hx
      · simp at hx; rcases hx with h | h | h <;> omega
      · simp at hx; rcases hx with h | h | h | h <;> omega

theorem utf8EncodeChars_lt (cs : List Char) :
    ∀ x ∈ utf8EncodeChars cs, x < 256 := by
  induction cs with
  | nil => simp [utf8EncodeChars]
  | cons c cs ih =>
      intro x hx
      rw [utf8EncodeChars] at hx
      rcases List.mem_append.mp hx with h | h
      · exact utf8EncodeNat_lt c.toNat (char_toNat_lt c) x h
      · exact ih x h

theorem utf8_decode_step (c : Char) (rest : List Nat) (fuel : Nat) :
    utf8DecodeAux (fuel + 1) (utf8EncodeNat c.toNat ++ rest) =
      (utf8DecodeAux fuel rest).map fun cs => c :: cs := by
  have hv : c.toNat < 1114112 := char_toNat_lt c
  have hc : Char.ofNat c.toNat = c := Char.ofNat_toNat c
  rw [utf8EncodeNat]
  by_cases h1 : c.toNat < 0x80
  · rw [if_pos h1, List.cons_append, List.nil_append]
    simp only [utf8DecodeAux, if_pos h1, hc]
    cases utf8DecodeAux fuel rest <;> rfl
  · rw [if_neg h1]
    by_cases h2 : c.toNat < 0x800
    · rw [if_pos h2, List.cons_append, List.cons_append, List.nil_append]
      simp only [utf8DecodeAux]
      rw [if_neg (by omega), if_pos (by omega), if_pos (by omega)]
      have e : (0xC0 + c.toNat / 64 - 0xC0) * 64 + (0x80 + c.toNat % 64 - 0x80)
          = c.toNat := by omega
      rw [e, hc]
      cases utf8DecodeAux fuel rest <;> rfl
    · rw [if_neg h2]
      by_cases h3 : c.toNat < 0x10000
      · rw [if_pos h3, List.cons_append, List.cons_append, List.cons_append,
          List.nil_append]
        simp only [utf8DecodeAux]
        rw [if_neg (by omega), if_neg (by omega), if_pos (by omega),
          if_pos (by refine ⟨⟨by omega, by omega⟩, by omega, by omega⟩)]
        have e : (0xE0 + c.toNat / 4096 - 0xE0) * 4096 +
            (0x80 + c.toNat / 64 % 64 - 0x80) * 64 +
            (0x80 + c.toNat % 64 - 0x80) = c.toNat := by omega
        rw [e, hc]
        cases utf8DecodeAux fuel rest <;> rfl
      · rw [if_neg h3, List.cons_append, List.cons_append, List.cons_append,
          List.cons_append, List.nil_append]
        simp only [utf8DecodeAux]
        rw [if_neg (by omega), if_neg (by omega), if_neg (by omega),
          if_pos (by omega),
          if_pos (by refine ⟨⟨by omega, by omega⟩, ⟨by omega, by omega⟩,
            by omega, by omega⟩)]
        have e : (0xF0 + c.toNat / 262144 - 0xF0) * 262144 +
            (0x80 + c.toNat / 4096 % 64 - 0x80) * 4096 +
            (0x80 + c.toNat / 64 % 64 - 0x80) * 64 +
            (0x80 + c.toNat % 64 - 0x80) = c.toNat := by omega
        rw [e, hc]
        cases utf8DecodeAux fuel rest <;> rfl

theorem utf8_roundtrip_chars (cs : List Char) :
    ∀ fuel, cs.length ≤ fuel →
      utf8DecodeAux fuel (utf8EncodeChars cs) = some cs := by
  induction cs with
  | nil =>
      intro fuel _
      cases fuel <;> rfl
  | cons c cs ih =>
      intro fuel hf
      match fuel, hf with
      | fuel + 1, hf =>
        rw [utf8EncodeChars, utf8_decode_step,
          ih fuel (by simpa using Nat.lt_succ_iff.mp (Nat.lt_of_lt_of_le
            (Nat.lt_succ_of_le (Nat.le_refl _)) hf))]
        rfl

theorem utf8EncodeChars_length_ge (cs : List Char) :
    cs.length ≤ (utf8EncodeChars cs).length := by
  induction cs with
  | nil => simp [utf8EncodeChars]
  | cons c cs ih =>
      rw [utf8EncodeChars, List.length_append, List.length_cons]
      have : 1 ≤ (utf8EncodeNat c.toNat).length := by
        unfold utf8EncodeNat
        split
        · simp
        · split
          · simp
          · split <;> simp
      omega

theorem utf8_roundtrip (s : String) :
    utf8DecodeString (utf8Encode s) = some s := by
  rw [utf8DecodeString, utf8Encode,
    utf8_roundtrip_chars s.data _ (utf8EncodeChars_length_ge s.data)]
  cases s
  rfl

/-! ## Shared helper lemmas -/

theorem dictGet_dictSet_self {α : Type} (props : List (String × α))
    (k : String) (v : α) : dictGet (dictSet props k v) k = some v := by
  induction props with
  | nil => simp [dictGet, dictSet]
  | cons p rest ih =>
      obtain ⟨k', v'⟩ := p
      by_cases h : k' = k
      · simp [dictGet, dictSet, h]
      · simp [dictGet, dictSet, h, ih]

theorem prefix_append_one {α : Type} (l : List α) (x : α) : l <+: l ++ [x] :=
  ⟨[x], rfl⟩

/-! ## Claims -/

/-- C2: `Message.send`, `Message.reply`, `Message.forward` and
`Message.move` each queue exactly one `ServiceOperationQuery` named after
the REST operation they wrap (`"send"`, `"reply"`, `"forward"`,
`"move"`), with the fixed payload shape: `send` carries no payload;
`reply` carries exactly `"message"` (a fresh `Message` that is also the
method's return value) and `"comment"`; `forward` carries exactly
`"toRecipients"` (the emails mapped in order through
`Recipient.from_email`) and `"comment"`; `move` carries exactly
`"DestinationId"`. -/
theorem claim_C2 (m : Message) (ctx : ClientContext) (comment : Option String)
    (to_recipients : List String) (fwd_comment destination_id : String) :
    (Message.send m ctx).1.queries = ctx.queries ++
      [{ bindingType := .message m, methodName := "send" }] ∧
    (Message.send m ctx).2 = m ∧
    (Message.reply m ctx comment).1.queries = ctx.queries ++
      [{ bindingType := .message m, methodName := "reply",
         parameterType := some
           [("message", ParamValue.msg (Message.reply m ctx comment).2),
            ("comment", ParamValue.optStr comment)] }] ∧
    (Message.reply m ctx comment).2 = ({} : Message) ∧
    (Message.forward m ctx to_recipients fwd_comment).1.queries = ctx.queries ++
      [{ bindingType := .message m, methodName := "forward",
         parameterType := some
           [("toRecipients", ParamValue.recipients
              (to_recipients.map Recipient.from_email)),
            ("comment", ParamValue.str fwd_comment)] }] ∧
    (Message.forward m ctx to_recipients fwd_comment).2 = m ∧
    (Message.move m ctx destination_id).1.queries = ctx.queries ++
      [{ bindingType := .message m, methodName := "move",
         parameterType := some
           [("DestinationId", ParamValue.str destination_id)] }] ∧
    (Message.move m ctx destination_id).2 = m :=
  ⟨rfl, rfl, rfl, rfl, rfl, rfl, rfl, rfl⟩

/-- C3: `GroupSiteManager.create_group_ex` queues exactly one
`"CreateGroupEx"` query whose payload has exactly the keys
`"displayName"`, `"alias"`, `"isPublic"` and `"optionalParams"` bound to
the method's arguments, and returns the `GroupSiteInfo` placeholder
bound as the query's return type; `GroupSiteManager.delete` queues
exactly one `"Delete"` query whose payload has exactly the key
`"siteUrl"`. -/
theorem claim_C3 (ctx : ClientContext) (display_name alias_ : String)
    (is_public : Bool) (optional_params : ParamValue) (site_url : String) :
    (GroupSiteManager.create_group_ex ctx display_name alias_ is_public
        optional_params).1.queries = ctx.queries ++
      [{ bindingType := .groupSiteManager, methodName := "CreateGroupEx",
         parameterType := some
           [("displayName", ParamValue.str display_name),
            ("alias", ParamValue.str alias_),
            ("isPublic", ParamValue.boolVal is_public),
            ("optionalParams", optional_params)],
         returnType := some (ReturnValue.groupSiteInfo
           (GroupSiteManager.create_group_ex ctx display_name alias_ is_public
              optional_params).2) }] ∧
    (GroupSiteManager.create_group_ex ctx display_name alias_ is_public
        optional_params).2 = GroupSiteInfo.placeholder ∧
    (GroupSiteManager.delete ctx site_url).queries = ctx.queries ++
      [{ bindingType := .groupSiteManager, methodName := "Delete",
         parameterType := some [("siteUrl", ParamValue.str site_url)] }] :=
  ⟨rfl, rfl, rfl⟩

/-- C6: `MessageCollection.add` normalises its inputs into the fixed
draft payload: an `ItemBody` body is passed through unchanged and any
other body is wrapped as `ItemBody(body)`; a `None` recipient list is
treated exactly like `[]`; and the `toRecipients` payload value is the
input list mapped element-wise, in order, through `Recipient.from_email`,
so its length equals the input's length. -/
theorem claim_C6 (subject s : String) (b : ItemBody) (body : BodyInput)
    (tos : List String) :
    (MessageCollection.add subject (BodyInput.body b) (some tos)).body = b ∧
    (MessageCollection.add subject (BodyInput.body b) none).body = b ∧
    (MessageCollection.add subject (BodyInput.str s) (some tos)).body =
      { content := some s } ∧
    MessageCollection.add subject body none =
      MessageCollection.add subject body (some []) ∧
    (MessageCollection.add subject body (some tos)).toRecipients =
      tos.map Recipient.from_email ∧
    (MessageCollection.add subject body (some tos)).toRecipients.length =
      tos.length := by
  refine ⟨rfl, rfl, rfl, rfl, rfl, ?_⟩
  simp [MessageCollection.add]

/-- C9: `Message.add_file_attachment` stores a lossless encoding of its
content: `content_bytes` is the base64 encoding of the UTF-8 encoding of
the content, and base64-decoding it followed by UTF-8 decoding yields
exactly the original content string. -/
theorem claim_C9 (name content : String) (content_type : Option String) :
    (Message.add_file_attachment name content content_type).content_bytes =
      ⟨b64EncodeBytes (utf8Encode content)⟩ ∧
    (b64DecodeChars
        (Message.add_file_attachment name content content_type).content_bytes.data).bind
      utf8DecodeString = some content := by
  refine ⟨rfl, ?_⟩
  show (b64DecodeChars (b64EncodeBytes (utf8Encode content))).bind
      utf8DecodeString = some content
  rw [b64_roundtrip (utf8Encode content)
    (fun x hx => utf8EncodeChars_lt content.data x hx), Option.some_bind]
  exact utf8_roundtrip content

/-- C1: every operation method on the client objects (`Message.send`,
`reply`, `reply_all`, `forward`, `move`, `get_content`,
`GroupSiteManager.create_group_ex`, `delete`, `get_status`) only appends
one query to the context's pending-query queue (and possibly registers
before/after-execute callbacks) and never dispatches an HTTP request;
dispatch happens only on an explicit execute call on the context. -/
theorem claim_C1 (ctx : ClientContext) (m : Message) (comment : Option String)
    (to_recipients : List String) (fwd_comment destination_id : String)
    (display_name alias_ : String) (is_public : Bool)
    (optional_params : ParamValue) (site_url group_id : String)
    (q : ServiceOperationQuery) (rest : List ServiceOperationQuery) :
    OnlyQueues ctx (Message.send m ctx).1 ∧
    OnlyQueues ctx (Message.reply m ctx comment).1 ∧
    OnlyQueues ctx (Message.reply_all m ctx).1 ∧
    OnlyQueues ctx (Message.forward m ctx to_recipients fwd_comment).1 ∧
    OnlyQueues ctx (Message.move m ctx destination_id).1 ∧
    OnlyQueues ctx (Message.get_content m ctx) ∧
    OnlyQueues ctx (GroupSiteManager.create_group_ex ctx display_name alias_
      is_public optional_params).1 ∧
    OnlyQueues ctx (GroupSiteManager.delete ctx site_url) ∧
    OnlyQueues ctx (GroupSiteManager.get_status ctx group_id).1 ∧
    (∃ r, (ClientContext.execute_query { ctx with queries := q :: rest }).dispatched
        = ctx.dispatched ++ [r]) := by
  refine ⟨⟨rfl, ⟨_, rfl⟩, List.prefix_rfl, List.prefix_rfl, List.prefix_rfl⟩,
    ⟨rfl, ⟨_, rfl⟩, List.prefix_rfl, List.prefix_rfl, List.prefix_rfl⟩,
    ⟨rfl, ⟨_, rfl⟩, List.prefix_rfl, List.prefix_rfl, List.prefix_rfl⟩,
    ⟨rfl, ⟨_, rfl⟩, List.prefix_rfl, List.prefix_rfl, List.prefix_rfl⟩,
    ⟨rfl, ⟨_, rfl⟩, List.prefix_rfl, List.prefix_rfl, List.prefix_rfl⟩,
    ⟨rfl, ⟨_, rfl⟩, prefix_append_one _ _, List.prefix_rfl, List.prefix_rfl⟩,
    ⟨rfl, ⟨_, rfl⟩, List.prefix_rfl, List.prefix_rfl, List.prefix_rfl⟩,
    ⟨rfl, ⟨_, rfl⟩, List.prefix_rfl, List.prefix_rfl, List.prefix_rfl⟩,
    ⟨rfl, ⟨_, rfl⟩, List.prefix_rfl, List.prefix_rfl, prefix_append_one _ _⟩,
    ⟨_, rfl⟩⟩

/-- C4: `Message.upload_attachment` decides between plain and chunked
upload by the single threshold `max_upload_chunk = 3,000,000` bytes: a
strictly larger file is scheduled for a resumable chunked upload with
chunk size 3,000,000 after ensuring the `"id"` property is loaded; any
file of at most 3,000,000 bytes has its content stored inline,
base64-encoded, with the attachment named by the file's basename. -/
theorem claim_C4 (file : LocalFile) :
    (3000000 < file.st_size →
      Message.upload_attachment file = UploadAction.resumable 3000000 "id") ∧
    (file.st_size ≤ 3000000 →
      Message.upload_attachment file =
        UploadAction.inlineContent ⟨b64EncodeBytes file.content⟩
          (basename file.path)) := by
  constructor
  · intro h
    rw [Message.upload_attachment, if_pos]
    exact h
  · intro h
    rw [Message.upload_attachment, if_neg]
    omega

/-- C4 witness: a 3,000,001-byte file goes to the resumable branch with
chunk size 3,000,000, and a 2-byte file is stored inline under its
basename. -/
theorem claim_C4_witness :
    3000000 < (LocalFile.mk "big.bin" (List.replicate 3000001 0)).st_size ∧
    Message.upload_attachment ⟨"big.bin", List.replicate 3000001 0⟩ =
      UploadAction.resumable 3000000 "id" ∧
    (LocalFile.mk "/tmp/a.txt" [104, 105]).st_size ≤ 3000000 ∧
    Message.upload_attachment ⟨"/tmp/a.txt", [104, 105]⟩ =
      UploadAction.inlineContent ⟨b64EncodeBytes [104, 105]⟩
        (basename "/tmp/a.txt") := by
  have hbig : 3000000 < (LocalFile.mk "big.bin" (List.replicate 3000001 0)).st_size := by
    show 3000000 < (List.replicate 3000001 (0 : Nat)).length
    rw [List.length_replicate]
    omega
  have hsmall : (LocalFile.mk "/tmp/a.txt" [104, 105]).st_size ≤ 3000000 := by
    show ([104, 105] : List Nat).length ≤ 3000000
    rw [List.length_cons, List.length_cons, List.length_nil]
    omega
  exact ⟨hbig, (claim_C4 _).1 hbig, hsmall, (claim_C4 _).2 hsmall⟩

/-- C5: when the loaded property map lacks the corresponding JSON key,
the `Message` getters return lazy defaults without mutating the map:
`attachments` a fresh `AttachmentCollection` rooted at the message's
resource path, `toRecipients` an empty collection, `subject` and
`hasAttachments` `None`; the receiver after the call equals the receiver
before it. -/
theorem claim_C5 (m : Message) :
    (dictGet m.properties "attachments" = none →
      Message.attachments m =
        (PropValue.attachmentCollection
          (ResourcePath.mk "attachments" m.resourcePath), m)) ∧
    (dictGet m.properties "toRecipients" = none →
      Message.to_recipients m = (PropValue.recipients [], m)) ∧
    (dictGet m.properties "subject" = none →
      Message.subject m = (none, m)) ∧
    (dictGet m.properties "hasAttachments" = none →
      Message.has_attachments m = (none, m)) := by
  refine ⟨fun h => ?_, fun h => ?_, fun h => ?_, fun h => ?_⟩
  · simp [Message.attachments, h]
  · simp [Message.to_recipients, h]
  · simp [Message.subject, h]
  · simp [Message.has_attachments, h]

/-- C5 witness: on a freshly constructed message with an empty property
map, all four getters return their lazy default and leave the message
unchanged. -/
theorem claim_C5_witness :
    (dictGet ({} : Message).properties "attachments" = none ∧
      Message.attachments {} =
        (PropValue.attachmentCollection (ResourcePath.mk "attachments" .root),
         {})) ∧
    (dictGet ({} : Message).properties "toRecipients" = none ∧
      Message.to_recipients {} = (PropValue.recipients [], {})) ∧
    (dictGet ({} : Message).properties "subject" = none ∧
      Message.subject {} = (none, {})) ∧
    (dictGet ({} : Message).properties "hasAttachments" = none ∧
      Message.has_attachments {} = (none, {})) :=
  ⟨⟨rfl, (claim_C5 {}).1 rfl⟩, ⟨rfl, (claim_C5 {}).2.1 rfl⟩,
   ⟨rfl, (claim_C5 {}).2.2.1 rfl⟩, ⟨rfl, (claim_C5 {}).2.2.2 rfl⟩⟩

/-- C7: the `Message.body` setter and getter round-trip: assigning a
string `v` stores `ItemBody(v)` and the getter returns it; assigning a
value that is already an `ItemBody` stores it unchanged, so assigning
the getter's result back leaves the stored property equal and the getter
unchanged. -/
theorem claim_C7 (m : Message) (v : String) (b gb : ItemBody) :
    dictGet (Message.set_body m (BodyInput.str v)).properties "body" =
      some (PropValue.itemBody { content := some v }) ∧
    Message.body (Message.set_body m (BodyInput.str v)) =
      some (PropValue.itemBody { content := some v }) ∧
    dictGet (Message.set_body m (BodyInput.body b)).properties "body" =
      some (PropValue.itemBody b) ∧
    (Message.body m = some (PropValue.itemBody gb) →
      dictGet (Message.set_body m (BodyInput.body gb)).properties "body" =
        some (PropValue.itemBody gb) ∧
      Message.body (Message.set_body m (BodyInput.body gb)) = Message.body m) := by
  have hset : ∀ bi : ItemBody,
      dictGet (Message.set_body m (BodyInput.body bi)).properties "body" =
        some (PropValue.itemBody bi) := fun bi =>
    dictGet_dictSet_self m.properties "body" (PropValue.itemBody bi)
  have hsetstr : dictGet (Message.set_body m (BodyInput.str v)).properties "body" =
      some (PropValue.itemBody { content := some v }) :=
    dictGet_dictSet_self m.properties "body" _
  refine ⟨hsetstr, ?_, hset b, fun hget => ⟨hset gb, ?_⟩⟩
  · show Message.get_property _ "body" (some (PropValue.itemBody {})) = _
    rw [Message.get_property]
    show ClientObject.get_property _ "body" _ = _
    rw [ClientObject.get_property, hsetstr]
  · show Message.get_property _ "body" (some (PropValue.itemBody {})) = _
    rw [Message.get_property]
    show ClientObject.get_property _ "body" _ = _
    rw [ClientObject.get_property, hset gb, hget]

/-- C7 witness: on a fresh message, assigning the string `"hi"` stores
`ItemBody("hi")` and the getter returns it; the getter's default
`ItemBody()` assigned back is stored unchanged and the getter still
returns it. -/
theorem claim_C7_witness :
    dictGet (Message.set_body {} (BodyInput.str "hi")).properties "body" =
      some (PropValue.itemBody { content := some "hi" }) ∧
    Message.body (Message.set_body {} (BodyInput.str "hi")) =
      some (PropValue.itemBody { content := some "hi" }) ∧
    Message.body ({} : Message) = some (PropValue.itemBody { content := none }) ∧
    dictGet (Message.set_body {} (BodyInput.body { content := none })).properties
        "body" = some (PropValue.itemBody { content := none }) ∧
    Message.body (Message.set_body {} (BodyInput.body { content := none })) =
      Message.body ({} : Message) := by
  have hget : Message.body ({} : Message) =
      some (PropValue.itemBody { content := none }) := rfl
  have h := claim_C7 {} "hi" { content := none } { content := none }
  exact ⟨h.1, h.2.1, hget, (h.2.2.2 hget).1, (h.2.2.2 hget).2⟩

/-- C8: the `beforeExecute` handler registered by
`GroupSiteManager.get_status` fires at most once: on its single run it
sets the request method to GET, appends `?groupId='<group_id>'` to the
request URL from the queued query's parameter, and unsubscribes itself,
so any later request executed on the same context is left unmodified by
this handler. -/
theorem claim_C8 (ctx : ClientContext) (group_id : String)
    (req req2 : RequestOptions) (q2 : ServiceOperationQuery) :
    ((GroupSiteManager.get_status { ctx with pendingBefore := [] }
        group_id).1.queries = ctx.queries ++
      [{ bindingType := .groupSiteManager, methodName := "GetSiteStatus",
         parameterType := some [("groupId", ParamValue.str group_id)],
         returnType := some (ReturnValue.groupSiteInfo
           GroupSiteInfo.placeholder) }]) ∧
    (GroupSiteManager.get_status { ctx with pendingBefore := [] }
        group_id).1.pendingBefore = [RequestHandler.constructStatusRequest] ∧
    fireRequestHandlers
        (GroupSiteManager.get_status { ctx with pendingBefore := [] }
          group_id).1.pendingBefore req
        { bindingType := .groupSiteManager, methodName := "GetSiteStatus",
          parameterType := some [("groupId", ParamValue.str group_id)],
          returnType := some (ReturnValue.groupSiteInfo
            GroupSiteInfo.placeholder) } =
      ({ method := HttpMethod.Get,
         url := req.url ++ "?groupId='" ++ group_id ++ "'" }, []) ∧
    fireRequestHandlers [] req2 q2 = (req2, []) ∧
    ((GroupSiteManager.get_status {} group_id).1.execute_query.dispatched =
      [{ method := HttpMethod.Get,
         url := "/GetSiteStatus" ++ "?groupId='" ++ group_id ++ "'" }]) ∧
    (GroupSiteManager.get_status {} group_id).1.execute_query.pendingBefore =
      [] := by
  refine ⟨rfl, rfl, ?_, rfl, ?_, rfl⟩
  · show (fireRequestHandlers [RequestHandler.constructStatusRequest] req _) = _
    rw [fireRequestHandlers]
    rfl
  · rfl

/-- C10: `Message.download` never writes to the supplied file object
before execution; its after-execute callback calls `raise_for_status`
before writing, so an error-status response produces no write and the
`HTTPError` propagates, while a success-status response writes exactly
the fetched MIME content. -/
theorem claim_C10 (m : Message) (w : World) (value : String) (resp : Response)
    (f : FileObject) :
    (Message.download m w).file = w.file ∧
    (Message.download m w).ctx.afterExecuteHandlers =
      w.ctx.afterExecuteHandlers ++ [AfterHandler.contentDownloaded] ∧
    (Message.download m w).ctx.dispatched = w.ctx.dispatched ∧
    (400 ≤ resp.status_code → resp.status_code < 600 →
      runAfterHandler AfterHandler.contentDownloaded value resp f =
        Except.error "HTTPError") ∧
    (resp.status_code < 400 →
      runAfterHandler AfterHandler.contentDownloaded value resp f =
        Except.ok (f ++ [value])) := by
  refine ⟨rfl, rfl, rfl, fun h1 h2 => ?_, fun h => ?_⟩
  · show content_downloaded value resp f = _
    rw [content_downloaded, raise_for_status, if_pos ⟨h1, h2⟩]
  · show content_downloaded value resp f = _
    rw [content_downloaded, raise_for_status, if_neg (by omega)]

/-- C10 witness: a 404 response produces an `HTTPError` and no write,
while a 200 response writes the fetched value; the method itself leaves
the file object untouched. -/
theorem claim_C10_witness :
    (Message.download {} {}).file = [] ∧
    (400 ≤ (404 : Nat) ∧
      runAfterHandler AfterHandler.contentDownloaded "mime" ⟨404⟩ [] =
        Except.error "HTTPError") ∧
    ((200 : Nat) < 400 ∧
      runAfterHandler AfterHandler.contentDownloaded "mime" ⟨200⟩ [] =
        Except.ok ["mime"]) := by
  have h := claim_C10 {} {} "mime" ⟨404⟩ []
  have h2 := claim_C10 {} {} "mime" ⟨200⟩ []
  exact ⟨h.1, ⟨by decide, h.2.2.2.1 (by decide) (by decide)⟩,
    ⟨by decide, h2.2.2.2.2 (by decide)⟩⟩
